import Mathlib

/-!
Verification of the STIG scanner/remediation engine
(`ubuntu_stig_agent/remediation.py`, `ubuntu_stig_agent/database.py`,
`ubuntu_stig_agent/scanners/*.py`).

File contents are modelled as lists of characters (`Chars`); Python's
multi-line regex substitution over the catalog's patterns (all of the
form `^LITERAL.*`), substring membership (`in`), `str.strip`,
`f.readlines()` and `'\n'.join` are given explicit executable
definitions.  The filesystem, the backup directory and the plan store
are modelled as association lists; external subprocess calls
(`apt-get`, `systemctl`) are modelled by an oracle (`Host`) whose
results say whether the call raised and what it returned.
-/

/-- File contents and lines are lists of characters. -/
abbrev Chars := List Char

/-- Convert a Lean string literal to the character-list representation. -/
def str (s : String) : Chars := s.data

/-- `isPref p s` is true iff `p` is a leading segment of `s`
(character-level, used to model Python regexes of shape `^p.*`). -/
def isPref : Chars → Chars → Bool
  | [], _ => true
  | _ :: _, [] => false
  | a :: p, b :: s => a = b && isPref p s

/-- `hasSub p s` models Python's substring test `p in s`. -/
def hasSub (p : Chars) : Chars → Bool
  | [] => isPref p []
  | c :: s => isPref p (c :: s) || hasSub p s

theorem isPref_iff (p s : Chars) : isPref p s = true ↔ ∃ t, s = p ++ t := by
  induction p generalizing s with
  | nil => simp [isPref]
  | cons a p ih =>
    cases s with
    | nil =>
      simp [isPref]
    | cons b s =>
      simp only [isPref, Bool.and_eq_true, decide_eq_true_eq, ih]
      constructor
      · rintro ⟨rfl, t, rfl⟩
        exact ⟨t, rfl⟩
      · rintro ⟨t, h⟩
        cases h
        exact ⟨rfl, t, rfl⟩

theorem hasSub_iff (p s : Chars) : hasSub p s = true ↔ ∃ a b, s = a ++ p ++ b := by
  induction s with
  | nil =>
    simp only [hasSub, isPref_iff]
    constructor
    · rintro ⟨t, h⟩
      exact ⟨[], t, by simpa using h⟩
    · rintro ⟨a, b, h⟩
      rcases List.append_eq_nil.1 h.symm with ⟨hap, hb⟩
      rcases List.append_eq_nil.1 hap with ⟨ha, hp⟩
      exact ⟨[], by simp [hp]⟩
  | cons c s ih =>
    simp only [hasSub, Bool.or_eq_true, isPref_iff, ih]
    constructor
    · rintro (⟨t, h⟩ | ⟨a, b, h⟩)
      · exact ⟨[], t, by simpa using h⟩
      · exact ⟨c :: a, b, by simp [h]⟩
    · rintro ⟨a, b, h⟩
      cases a with
      | nil => exact Or.inl ⟨b, by simpa using h⟩
      | cons x a =>
        right
        refine ⟨a, b, ?_⟩
        have := h
        simp only [List.cons_append] at this
        exact (List.cons_eq_cons.1 this).2

/-- A substring occurrence transfers across equality of contents:
used to show distinctness of contents with different substring status. -/
theorem hasSub_congr {p s t : Chars} (h : s = t) : hasSub p s = hasSub p t := by
  rw [h]

/-- Split a character list at every newline (Python `s.split("\n")`,
also the line structure seen by `re.MULTILINE`). -/
def splitNl : Chars → List Chars
  | [] => [[]]
  | c :: s =>
    if c = '\n' then [] :: splitNl s
    else
      match splitNl s with
      | [] => [[c]]
      | l :: ls => (c :: l) :: ls

/-- Joining lines with newlines (Python `"\n".join(lines)`). -/
def joinNl : List Chars → Chars
  | [] => []
  | [l] => l
  | l :: ls => l ++ '\n' :: joinNl ls

theorem splitNl_ne_nil (s : Chars) : splitNl s ≠ [] := by
  cases s with
  | nil => simp [splitNl]
  | cons c s =>
    simp only [splitNl]
    split
    · simp
    · split <;> simp

theorem joinNl_cons (l : Chars) (ls : List Chars) (h : ls ≠ []) :
    joinNl (l :: ls) = l ++ '\n' :: joinNl ls := by
  cases ls with
  | nil => exact absurd rfl h
  | cons x xs => rfl

theorem joinNl_splitNl (s : Chars) : joinNl (splitNl s) = s := by
  induction s with
  | nil => simp [splitNl, joinNl]
  | cons c s ih =>
    simp only [splitNl]
    split
    · rename_i h
      rw [joinNl_cons _ _ (splitNl_ne_nil s), ih, h]
      simp
    · rename_i h
      rcases hs : splitNl s with _ | ⟨l, ls⟩
      · exact absurd hs (splitNl_ne_nil s)
      · rw [hs] at ih
        cases ls with
        | nil => simp only [joinNl] at ih ⊢; rw [ih]
        | cons y ys =>
          rw [joinNl_cons _ _ (by simp)] at ih ⊢
          simp only [List.cons_append, ih]

theorem noNl_of_mem_splitNl {s : Chars} {l : Chars} (h : l ∈ splitNl s) : '\n' ∉ l := by
  induction s generalizing l with
  | nil =>
    simp only [splitNl, List.mem_singleton] at h
    simp [h]
  | cons c s ih =>
    simp only [splitNl] at h
    split at h
    · rcases List.mem_cons.1 h with h | h
      · simp [h]
      · exact ih h
    · rename_i hc
      rcases hs : splitNl s with _ | ⟨x, xs⟩
      · exact absurd hs (splitNl_ne_nil s)
      · rw [hs] at h
        rcases List.mem_cons.1 h with h | h
        · subst h
          intro hm
          rcases List.mem_cons.1 hm with h | h
          · exact hc h.symm
          · exact ih (hs ▸ List.mem_cons_self x xs) h
        · exact ih (hs ▸ List.mem_cons.2 (Or.inr h))

theorem splitNl_noNl {l : Chars} (h : '\n' ∉ l) : splitNl l = [l] := by
  induction l with
  | nil => simp [splitNl]
  | cons c s ih =>
    have hc : ¬(c = '\n') := fun hcc => h (hcc ▸ List.mem_cons_self c s)
    have hs : '\n' ∉ s := fun hm => h (List.mem_cons.2 (Or.inr hm))
    simp only [splitNl, if_neg hc, ih hs]

/-- Splitting distributes over an explicit newline. -/
theorem splitNl_append_nl (a b : Chars) :
    splitNl (a ++ '\n' :: b) = splitNl a ++ splitNl b := by
  induction a with
  | nil => simp [splitNl]
  | cons c t ih =>
    by_cases hc : c = '\n'
    · subst hc
      simp [splitNl, ih]
    · simp only [List.cons_append, splitNl, if_neg hc, List.append_eq]
      rw [ih]
      rcases ht : splitNl t with _ | ⟨l, ls⟩
      · exact absurd ht (splitNl_ne_nil t)
      · simp

theorem splitNl_joinNl (ls : List Chars) (hne : ls ≠ [])
    (h : ∀ l ∈ ls, '\n' ∉ l) : splitNl (joinNl ls) = ls := by
  induction ls with
  | nil => exact absurd rfl hne
  | cons l ls ih =>
    cases ls with
    | nil =>
      simp only [joinNl]
      exact splitNl_noNl (h l (List.mem_cons_self l []))
    | cons x xs =>
      rw [joinNl_cons _ _ (by simp), splitNl_append_nl,
        splitNl_noNl (h l (List.mem_cons_self _ _)),
        ih (by simp) (fun y hy => h y (List.mem_cons.2 (Or.inr hy)))]
      rfl

/-! ## Data model (`Finding`, change operations, `Remediation`, the catalog)

Translated from `scanners/*.py` finding dictionaries and from
`RemediationManager._get_remediation_steps`. -/

/-- A scanner finding (the dictionaries built by the scanner variants). -/
structure Finding where
  ruleId : String
  title : String
  severity : String
  status : String
  description : String
  fix : String
  checkType : String
deriving DecidableEq, Repr

/-- One change-operation dictionary of a `file_edit`/`service_config`
remediation.  A dictionary may carry a `"regex"`/`"replacement"` pair,
an `"append_if_not_found"` line, or both (the source checks the two
keys independently).  Every regex in the catalog has the shape
`^LITERAL.*` under `re.MULTILINE`; such a pattern matches exactly the
full lines beginning with `LITERAL`, so it is represented by that
literal line prefix. -/
structure Change where
  regex : Option (Chars × Chars)
  appendIfNotFound : Option Chars
deriving DecidableEq, Repr

/-- A remediation-catalog entry (`_get_remediation_steps` values).
Optional fields model the presence/absence of the dictionary keys. -/
structure Remediation where
  rtype : String
  package : Option String := none
  configFile : Option String := none
  file : Option String := none
  settings : Option (List (Chars × Chars)) := none
  changes : List Change := []
  serviceRestart : Option String := none
  service : Option String := none
  backupRequired : Option Bool := none
deriving DecidableEq, Repr

/-- Catalog entry for V-72427 (password quality, package install). -/
def remV72427 : Remediation :=
  { rtype := "package_install"
    package := some "libpam-pwquality"
    configFile := some "/etc/security/pwquality.conf"
    settings := some [(str "minlen", str "14"), (str "dcredit", str "-1"),
      (str "ucredit", str "-1"), (str "lcredit", str "-1"), (str "ocredit", str "-1")]
    backupRequired := some true }

/-- Catalog entry for V-72433 (SSH protocol, file edit). -/
def remV72433 : Remediation :=
  { rtype := "file_edit"
    file := some "/etc/ssh/sshd_config"
    changes := [{ regex := some (str "Protocol", str "Protocol 2"), appendIfNotFound := none },
      { regex := none, appendIfNotFound := some (str "Protocol 2") }]
    serviceRestart := some "ssh"
    backupRequired := some true }

/-- Catalog entry for V-72435 (SSH root login, service config). -/
def remV72435 : Remediation :=
  { rtype := "service_config"
    service := some "ssh"
    configFile := some "/etc/ssh/sshd_config"
    changes :=
      [{ regex := some (str "PermitRootLogin", str "PermitRootLogin no"), appendIfNotFound := none },
       { regex := none, appendIfNotFound := some (str "PermitRootLogin no") }]
    backupRequired := some true }

/-- `RemediationManager._get_remediation_steps`: the static rule-id →
remediation catalog; unknown rule ids yield `none` (`dict.get`). -/
def getRemediationSteps (ruleId : String) : Option Remediation :=
  if ruleId = "V-72427" then some remV72427
  else if ruleId = "V-72433" then some remV72433
  else if ruleId = "V-72435" then some remV72435
  else none

/-! ## Applying change operations (`_handle_file_edit` content logic) -/

/-- `re.compile("^" + p-as-literal + ".*", re.MULTILINE).sub(r, s)`:
Python `Pattern.sub` replaces **every** non-overlapping match, and a
`^LITERAL.*` multi-line pattern matches precisely each full line that
begins with the literal, so the substitution rewrites every such line
to the replacement. -/
def regexSubAll (p r s : Chars) : Chars :=
  joinNl ((splitNl s).map (fun l => if isPref p l then r else l))

/-- One iteration of the change loop in `_handle_file_edit`: the regex
substitution when the `"regex"` key is present, then the conditional
append when `"append_if_not_found"` is present and not yet a substring
of the current content. -/
def applyChange (s : Chars) (ch : Change) : Chars :=
  let s1 := match ch.regex with
    | some (p, r) => regexSubAll p r s
    | none => s
  match ch.appendIfNotFound with
  | some line => if hasSub line s1 then s1 else s1 ++ '\n' :: line
  | none => s1

/-- The whole change loop of `_handle_file_edit`. -/
def applyChanges (s : Chars) (chs : List Change) : Chars := chs.foldl applyChange s

theorem splitNl_regexSubAll {p r s : Chars} (hr : '\n' ∉ r) :
    splitNl (regexSubAll p r s) = (splitNl s).map (fun l => if isPref p l then r else l) := by
  apply splitNl_joinNl
  · simpa using splitNl_ne_nil s
  · intro l hl
    rcases List.mem_map.1 hl with ⟨l0, hl0, hfl⟩
    by_cases h : isPref p l0 = true
    · rw [if_pos h] at hfl
      exact hfl ▸ hr
    · rw [if_neg h] at hfl
      exact hfl ▸ noNl_of_mem_splitNl hl0

/-- The per-line substitution is idempotent, so running the same
`^p.*` substitution twice equals running it once. -/
theorem regexSubAll_idem {p r s : Chars} (hr : '\n' ∉ r) :
    regexSubAll p r (regexSubAll p r s) = regexSubAll p r s := by
  show joinNl ((splitNl (regexSubAll p r s)).map (fun l => if isPref p l then r else l))
      = regexSubAll p r s
  rw [splitNl_regexSubAll hr, List.map_map]
  have hcomp : ((fun l => if isPref p l then r else l) ∘ (fun l => if isPref p l then r else l))
      = fun l : Chars => if isPref p l then r else l := by
    funext l
    by_cases h : isPref p l = true
    · simp [Function.comp_apply, h]
    · simp [Function.comp_apply, h]
  rw [hcomp]
  rfl

/-! ## Host state, backup store and external-call oracle -/

/-- A filesystem (or the backup directory) as an association list;
the most recent binding for a path wins. -/
abbrev Fs := List (String × Chars)

/-- Read a file; `none` models a raised `FileNotFoundError`. -/
def getFile : Fs → String → Option Chars
  | [], _ => none
  | (q, c) :: rest, p => if q = p then some c else getFile rest p

/-- Write a file (`open(path, "w")` / `shutil.copy2` destination). -/
def setFile (fs : Fs) (p : String) (c : Chars) : Fs := (p, c) :: fs

theorem getFile_setFile (fs : Fs) (p : String) (c : Chars) :
    getFile (setFile fs p c) p = some c := by
  simp [getFile, setFile]

/-- Host state: the real files plus the backup directory
(`/var/lib/stig-agent/backups`). -/
structure World where
  files : Fs
  backups : Fs
deriving DecidableEq, Repr

/-- Outcomes of the external subprocess calls, supplied as an oracle:
`.error` models the `await`/spawn raising an `OSError`; for `apt-get`
the `.ok` value is the return code and decoded stderr (the source
checks the code and embeds stderr in its failure message), while
`systemctl restart`/`enable` return codes are ignored by the source. -/
structure Host where
  apt : String → Except String (Nat × String)
  restart : String → Except String Unit
  enable : String → Except String Unit

/-- Host-mutating steps in the order they are attempted; used to state
that the backup strictly precedes every mutation. -/
inductive Event where
  | backup (target backupPath : String) (content : Chars)
  | write (path : String) (content : Chars)
  | restore (path : String) (content : Chars)
  | pkgInstall (package : String)
  | svcRestart (service : String)
  | svcEnable (service : String)
deriving DecidableEq, Repr

/-- Everything except taking a backup changes host state. -/
def mutatesHost : Event → Bool
  | .backup _ _ _ => false
  | _ => true

/-- The per-item result dictionary built by
`_execute_remediation_item`. -/
structure ExecResult where
  findingId : String
  title : String
  status : String
  changesMade : List String
  backupPath : Option String
  error : Option String
deriving DecidableEq, Repr

/-- Intermediate state of one remediation handler: world, the result
dictionary being mutated, emitted events, and the pending exception
(`some msg` models an uncaught Python exception carrying `str(e)`). -/
structure HStep where
  w : World
  res : ExecResult
  evs : List Event
  err : Option String
deriving Repr

/-- `str(KeyError(k))` (a missing dictionary key). -/
def keyErrorMsg (k : String) : String := "\x27" ++ k ++ "\x27"

/-- `str(FileNotFoundError)` for a missing file. -/
def fileNotFoundMsg (p : String) : String :=
  "[Errno 2] No such file or directory: \x27" ++ p ++ "\x27"

/-! ## `_handle_file_edit` / `_handle_service_config` -/

/-- `_handle_file_edit`: reads `remediation["file"]` (raising
`KeyError("file")` when the key is absent — as it is for the
`service_config` catalog entries), reads the file (raising when it
does not exist), applies the change operations, writes back only when
the content changed, then performs the optional service restart. -/
def handleFileEdit (host : Host) (w : World) (res : ExecResult) (rem : Remediation) : HStep :=
  match rem.file with
  | none => { w := w, res := res, evs := [], err := some (keyErrorMsg "file") }
  | some fp =>
    match getFile w.files fp with
    | none => { w := w, res := res, evs := [], err := some (fileNotFoundMsg fp) }
    | some content =>
      let newContent := applyChanges content rem.changes
      let st : World × ExecResult × List Event :=
        if newContent = content then (w, res, [])
        else ({ w with files := setFile w.files fp newContent },
          { res with changesMade := res.changesMade ++ ["Updated " ++ fp] },
          [Event.write fp newContent])
      match rem.serviceRestart with
      | none => { w := st.1, res := st.2.1, evs := st.2.2, err := none }
      | some svc =>
        match host.restart svc with
        | .error e => { w := st.1, res := st.2.1, evs := st.2.2, err := some e }
        | .ok _ =>
          { w := st.1
            res := { st.2.1 with
              changesMade := st.2.1.changesMade ++ ["Restarted service " ++ svc] }
            evs := st.2.2 ++ [Event.svcRestart svc]
            err := none }

/-- `_handle_service_config`: delegates to `_handle_file_edit`, then
enables the service (`systemctl enable`, return code ignored). -/
def handleServiceConfig (host : Host) (w : World) (res : ExecResult) (rem : Remediation) :
    HStep :=
  let s1 := handleFileEdit host w res rem
  match s1.err with
  | some _ => s1
  | none =>
    match rem.service with
    | none => { s1 with err := some (keyErrorMsg "service") }
    | some svc =>
      match host.enable svc with
      | .error e => { s1 with err := some e }
      | .ok _ =>
        { s1 with
          res := { s1.res with
            changesMade := s1.res.changesMade ++ ["Enabled service " ++ svc] }
          evs := s1.evs ++ [Event.svcEnable svc] }

/-! ## `_update_config_file` (key/value upsert) and `_handle_package_installation` -/

/-- ASCII whitespace stripped by Python `str.strip()`. -/
def isPyWs (c : Char) : Bool :=
  c = ' ' || c = '\t' || c = '\n' || c = '\r' || c = '\x0b' || c = '\x0c'

/-- Python `str.strip()` (on ASCII text). -/
def pyStrip (s : Chars) : Chars :=
  ((s.dropWhile isPyWs).reverse.dropWhile isPyWs).reverse

/-- Python `f.readlines()`: split after every newline, keeping it; a
trailing newline produces no extra empty element. -/
def pyReadlines : Chars → List Chars
  | [] => []
  | c :: s =>
    if c = '\n' then ['\n'] :: pyReadlines s
    else
      match pyReadlines s with
      | [] => [[c]]
      | l :: ls => (c :: l) :: ls

/-- `line.split("=")[0]`: the segment before the first `=`. -/
def beforeEq (s : Chars) : Chars := s.takeWhile (fun c => c ≠ '=')

/-- `"=" in line`. -/
def lineHasEq (l : Chars) : Bool := l.any (fun c => c = '=')

/-- The key the source extracts from a (stripped) config line. -/
def keyOf (l : Chars) : Chars := pyStrip (beforeEq l)

/-- Python `dict` lookup on the ordered settings (`key in settings`
then `settings[key]`). -/
def settingsLookup : List (Chars × Chars) → Chars → Option Chars
  | [], _ => none
  | (k, v) :: rest, q => if q = k then some v else settingsLookup rest q

/-- The canonical `f"{key} = {value}"` line written by the source. -/
def kvLine (k v : Chars) : Chars := k ++ str " = " ++ v

/-- Convert a character-list back to a `String` (for the
`changes_made` messages built from f-strings). -/
def ofChars (l : Chars) : String := String.mk l

/-- One iteration of the line loop of `_update_config_file`: the
accumulator carries the rewritten lines, the `settings_found` set and
the `changes_made` messages. -/
def updateLineStep (settings : List (Chars × Chars)) (path : String)
    (acc : List Chars × List Chars × List String) (l0 : Chars) :
    List Chars × List Chars × List String :=
  let l := pyStrip l0
  if lineHasEq l then
    match settingsLookup settings (keyOf l) with
    | some v =>
      (acc.1 ++ [kvLine (keyOf l) v], keyOf l :: acc.2.1,
        acc.2.2 ++ ["Updated " ++ ofChars (keyOf l) ++ " in " ++ path])
    | none => (acc.1 ++ [l], acc.2.1, acc.2.2)
  else (acc.1 ++ [l], acc.2.1, acc.2.2)

/-- The missing-settings loop of `_update_config_file`. -/
def addMissingStep (path : String) (acc : List Chars × List String) (kv : Chars × Chars) :
    List Chars × List String :=
  (acc.1 ++ [kvLine kv.1 kv.2], acc.2 ++ ["Added " ++ ofChars kv.1 ++ " to " ++ path])

/-- `_update_config_file` minus the I/O: from the current content and
the ordered settings, the rewritten content (written back with
`"\n".join`) and the `changes_made` messages it appends. -/
def updateConfigContent (content : Chars) (settings : List (Chars × Chars)) (path : String) :
    Chars × List String :=
  let st := (pyReadlines content).foldl (updateLineStep settings path) ([], [], [])
  let fin := settings.foldl
    (fun acc kv => if kv.1 ∈ st.2.1 then acc else addMissingStep path acc kv) ([], [])
  (joinNl (st.1 ++ fin.1), st.2.2 ++ fin.2)

/-- `_handle_package_installation`: reads `remediation["package"]`
(KeyError when absent), runs `apt-get install -y` (the oracle tells
whether the spawn raised and which return code / stderr it produced;
a non-zero code raises), then — when both the `config_file` and
`settings` keys are present — rewrites the config file through
`_update_config_file`, which writes unconditionally. -/
def handlePackageInstallation (host : Host) (w : World) (res : ExecResult)
    (rem : Remediation) : HStep :=
  match rem.package with
  | none => { w := w, res := res, evs := [], err := some (keyErrorMsg "package") }
  | some pkg =>
    match host.apt pkg with
    | .error e => { w := w, res := res, evs := [], err := some e }
    | .ok (rc, stderrText) =>
      if rc ≠ 0 then
        { w := w, res := res, evs := [Event.pkgInstall pkg],
          err := some ("Failed to install package " ++ pkg ++ ": " ++ stderrText) }
      else
        let res := { res with changesMade := res.changesMade ++ ["Installed package " ++ pkg] }
        match rem.configFile, rem.settings with
        | some cf, some settings =>
          (match getFile w.files cf with
          | none =>
            { w := w, res := res, evs := [Event.pkgInstall pkg],
              err := some (fileNotFoundMsg cf) }
          | some content =>
            let out := updateConfigContent content settings cf
            { w := { w with files := setFile w.files cf out.1 }
              res := { res with changesMade := res.changesMade ++ out.2 }
              evs := [Event.pkgInstall pkg, Event.write cf out.1]
              err := none })
        | _, _ => { w := w, res := res, evs := [Event.pkgInstall pkg], err := none }

/-! ## Backup, restore and `_execute_remediation_item` -/

/-- The backup source chosen by `_create_backup`: the `config_file`
key when present, else the `file` key (key-presence test, `in`). -/
def backupSource (rem : Remediation) : Option String :=
  match rem.configFile with
  | some s => some s
  | none => rem.file

/-- The restore target chosen by `_restore_from_backup`:
`remediation.get("config_file") or remediation.get("file")` —
Python `or` falls through on a falsy (empty) string. -/
def pyOrPath (a b : Option String) : Option String :=
  match a with
  | some s => if s = "" then b else some s
  | none => b

/-- The timestamped backup file name.  The source uses
`backup_dir / f"{basename(source)}.{timestamp}.bak"`; the wall-clock
timestamp is not modelled, so the name is a deterministic function of
the source path (unique per source within one item, which is all the
source relies on). -/
def backupName (source : String) : String :=
  "/var/lib/stig-agent/backups/" ++ source ++ ".bak"

/-- `_create_backup`: no target key or a missing target file yields
`None` (no backup); otherwise the target's bytes are copied. -/
def createBackup (w : World) (rem : Remediation) : Option (String × Chars) :=
  match backupSource rem with
  | none => none
  | some source =>
    match getFile w.files source with
    | none => none
    | some c => some (backupName source, c)

/-- `_restore_from_backup`: copy the backup back over the target when
both the backup file and a truthy target path exist. -/
def restoreFromBackup (w : World) (bp : String) (rem : Remediation) : World × List Event :=
  match getFile w.backups bp with
  | none => (w, [])
  | some c =>
    match pyOrPath rem.configFile rem.file with
    | none => (w, [])
    | some t =>
      if t = "" then (w, [])
      else ({ w with files := setFile w.files t c }, [Event.restore t c])

/-- A plan item built by `create_plan`. -/
structure PlanItem where
  findingId : String
  title : String
  severity : String
  remediation : Remediation
  backupRequired : Bool
deriving DecidableEq, Repr

/-- The type dispatch of `_execute_remediation_item` (the
`if`/`elif` chain on `remediation["type"]`; an unknown type runs no
handler and is treated as a success). -/
def dispatchRemediation (host : Host) (w : World) (res : ExecResult) (rem : Remediation) :
    HStep :=
  if rem.rtype = "package_install" then handlePackageInstallation host w res rem
  else if rem.rtype = "file_edit" then handleFileEdit host w res rem
  else if rem.rtype = "service_config" then handleServiceConfig host w res rem
  else { w := w, res := res, evs := [], err := none }

/-- `_execute_remediation_item`: initialise the result dictionary
(status `"failed"`, no backup path), take the backup when
`remediation.get("backup_required")` is truthy, dispatch on the
remediation type, then either mark success or — on an exception —
record the message and restore from the backup when one was taken.
All of the body after the result initialisation sits inside the
`try`, so the function itself never raises. -/
def executeItem (host : Host) (w0 : World) (item : PlanItem) :
    ExecResult × World × List Event :=
  let res0 : ExecResult :=
    { findingId := item.findingId, title := item.title, status := "failed",
      changesMade := [], backupPath := none, error := none }
  let rem := item.remediation
  let bk : World × ExecResult × List Event :=
    if rem.backupRequired.getD false then
      match createBackup w0 rem with
      | some (bp, c) =>
        ({ w0 with backups := setFile w0.backups bp c },
          { res0 with backupPath := some bp },
          [Event.backup ((backupSource rem).getD "") bp c])
      | none => (w0, res0, [])
    else (w0, res0, [])
  let step : HStep := dispatchRemediation host bk.1 bk.2.1 rem
  match step.err with
  | none => ({ step.res with status := "success" }, step.w, bk.2.2 ++ step.evs)
  | some e =>
    let res := { step.res with error := some e }
    match res.backupPath with
    | some bp =>
      let rb := restoreFromBackup step.w bp rem
      (res, rb.1, bk.2.2 ++ step.evs ++ rb.2)
    | none => (res, step.w, bk.2.2 ++ step.evs)

/-! ## Planner and plan store -/

/-- The plan-item dictionary appended by `create_plan` for a failed
finding whose rule id is in the catalog
(`backup_required = remediation.get("backup_required", True)`). -/
def mkPlanItem (f : Finding) (r : Remediation) : PlanItem :=
  { findingId := f.ruleId, title := f.title, severity := f.severity,
    remediation := r, backupRequired := r.backupRequired.getD true }

/-- One iteration of the finding loop of `create_plan`: append one
item when the finding failed and the catalog knows its rule id. -/
def createPlanStep (acc : List PlanItem) (f : Finding) : List PlanItem :=
  if f.status = "failed" then
    match getRemediationSteps f.ruleId with
    | some r => acc ++ [mkPlanItem f r]
    | none => acc
  else acc

/-- The item loop of `create_plan`. -/
def createPlanItems (findings : List Finding) : List PlanItem :=
  findings.foldl createPlanStep []

/-- A row of the `remediation_plans` table; `statusHistory` records
every status value the store has held for the plan, in order
(insert with `"pending"`, then each `update_remediation_status`). -/
structure StoredPlan where
  planId : String
  scanId : String
  items : List PlanItem
  statusHistory : List String
deriving DecidableEq, Repr

/-- The execution record built by `execute_plan` and inserted into
`remediation_history`. -/
structure Execution where
  planId : String
  items : List ExecResult
  status : String
deriving DecidableEq, Repr

/-- The agent database: stored plans (most recent first) and stored
executions. -/
structure DB where
  plans : List StoredPlan
  executions : List Execution
deriving DecidableEq, Repr

/-- `SELECT ... WHERE plan_id = ?` (first matching row). -/
def findPlan : List StoredPlan → String → Option StoredPlan
  | [], _ => none
  | sp :: rest, pid => if sp.planId = pid then some sp else findPlan rest pid

/-- `update_remediation_status`: `UPDATE remediation_plans SET status
= ? WHERE plan_id = ?` — appends the new status to the history of
every row with that plan id. -/
def updateStatus (db : DB) (pid st : String) : DB :=
  { db with
    plans := db.plans.map (fun sp =>
      if sp.planId = pid then { sp with statusHistory := sp.statusHistory ++ [st] } else sp) }

/-- `store_remediation_plan` derives the id from the scan id (the
wall-clock timestamp part is not modelled) and inserts the row with
status `"pending"`. -/
def planIdFor (scanId : String) : String := "plan_" ++ scanId

/-- `create_plan` followed by `store_remediation_plan`. -/
def createPlan (db : DB) (scanId : String) (findings : List Finding) : StoredPlan × DB :=
  let sp : StoredPlan :=
    { planId := planIdFor scanId, scanId := scanId,
      items := createPlanItems findings, statusHistory := ["pending"] }
  (sp, { db with plans := sp :: db.plans })

/-- The approved-item loop of `execute_plan`, threading the world and
collecting results and events in plan order. -/
def runItems (host : Host) (items : List PlanItem) (approved : List String) (w : World) :
    List ExecResult × World × List Event :=
  match items with
  | [] => ([], w, [])
  | it :: rest =>
    if it.findingId ∈ approved then
      let r := executeItem host w it
      let k := runItems host rest approved r.2.1
      (r.1 :: k.1, k.2.1, r.2.2 ++ k.2.2)
    else runItems host rest approved w

/-- `execute_plan`: load the plan (ValueError when absent), run the
approved items sequentially, then store the execution and update the
plan status.  The `try` in the source covers only the item loop, and
`_execute_remediation_item` catches every exception internally, so
for stored plans the status is set to `"completed"` unconditionally
— the `except` branch that would set `"failed"` is unreachable. -/
def executePlan (host : Host) (db : DB) (w : World) (pid : String)
    (approved : List String) : Except String (Execution × DB × World × List Event) :=
  match findPlan db.plans pid with
  | none => .error ("Plan " ++ pid ++ " not found")
  | some sp =>
    let k := runItems host sp.items approved w
    let exec : Execution := { planId := pid, items := k.1, status := "completed" }
    let db1 : DB := { db with executions := exec :: db.executions }
    .ok (exec, updateStatus db1 pid "completed", k.2.1, k.2.2)

/-! ## Scanner embedding (`security_config_scanner.py`,
`user_group_scanner.py` root-account check)

Each sub-check wraps its body in `try/except`; reading a missing file
(resp. `pwd.getpwnam` on a missing user) raises, and the handler
converts the exception into a `CHECK-ERROR` finding.  Note the
severity values: `SecurityConfigScanner` uses `"error"`, while the
other scanner variants use `"info"`. -/

/-- The `CHECK-ERROR` finding of `_check_password_policy`
(severity `"error"` in this scanner). -/
def pwErrorFinding (msg : String) : Finding :=
  { severity := "error", ruleId := "CHECK-ERROR", title := "Password Policy Check Error",
    status := "error", description := "Error checking password policy: " ++ msg,
    fix := "Ensure proper permissions to read PAM configuration.",
    checkType := "password_policy" }

/-- The V-72427 finding. -/
def v72427Finding : Finding :=
  { severity := "high", ruleId := "V-72427", title := "Password Quality Requirements",
    status := "failed",
    description := "Password quality requirements are not properly configured.",
    fix := "Install and configure pam_pwquality module.", checkType := "password_policy" }

/-- `SecurityConfigScanner._check_password_policy`. -/
def checkPasswordPolicy (fs : Fs) : List Finding :=
  match getFile fs "/etc/pam.d/common-password" with
  | none => [pwErrorFinding (fileNotFoundMsg "/etc/pam.d/common-password")]
  | some pamConfig =>
    if hasSub (str "pam_pwquality.so") pamConfig then [] else [v72427Finding]

/-- The `CHECK-ERROR` finding of `_check_ssh_config`. -/
def sshErrorFinding (msg : String) : Finding :=
  { severity := "error", ruleId := "CHECK-ERROR", title := "SSH Configuration Check Error",
    status := "error", description := "Error checking SSH configuration: " ++ msg,
    fix := "Ensure proper permissions to read SSH configuration.", checkType := "ssh_config" }

/-- The V-72433 finding. -/
def v72433Finding : Finding :=
  { severity := "high", ruleId := "V-72433", title := "SSH Protocol Version",
    status := "failed", description := "SSH must be configured to use Protocol version 2.",
    fix := "Set \x22Protocol 2\x22 in /etc/ssh/sshd_config", checkType := "ssh_config" }

/-- The V-72435 finding. -/
def v72435Finding : Finding :=
  { severity := "high", ruleId := "V-72435", title := "SSH Root Login",
    status := "failed", description := "Direct root login via SSH must be disabled.",
    fix := "Set \x22PermitRootLogin no\x22 in /etc/ssh/sshd_config", checkType := "ssh_config" }

/-- `SecurityConfigScanner._check_ssh_config`. -/
def checkSshConfig (fs : Fs) : List Finding :=
  match getFile fs "/etc/ssh/sshd_config" with
  | none => [sshErrorFinding (fileNotFoundMsg "/etc/ssh/sshd_config")]
  | some sshConfig =>
    (if hasSub (str "Protocol 2") sshConfig then [] else [v72433Finding]) ++
      (if hasSub (str "PermitRootLogin yes") sshConfig then [v72435Finding] else [])

/-- The `CHECK-ERROR` finding of `_check_system_security`. -/
def sysErrorFinding (msg : String) : Finding :=
  { severity := "error", ruleId := "CHECK-ERROR", title := "System Security Check Error",
    status := "error", description := "Error checking system security settings: " ++ msg,
    fix := "Ensure proper permissions to read system configuration files.",
    checkType := "system_security" }

/-- The V-72439 finding. -/
def v72439Finding : Finding :=
  { severity := "medium", ruleId := "V-72439", title := "Core Dumps",
    status := "failed", description := "Core dumps must be disabled for all users.",
    fix := "Add \x22*     hard    core    0\x22 to /etc/security/limits.conf",
    checkType := "system_security" }

/-- `SecurityConfigScanner._check_system_security`. -/
def checkSystemSecurity (fs : Fs) : List Finding :=
  match getFile fs "/etc/security/limits.conf" with
  | none => [sysErrorFinding (fileNotFoundMsg "/etc/security/limits.conf")]
  | some limitsConfig =>
    if hasSub (str "*     hard    core    0") limitsConfig then [] else [v72439Finding]

/-- `SecurityConfigScanner.scan`: the three sub-checks concatenated in
definition order. -/
def securityConfigScan (fs : Fs) : List Finding :=
  checkPasswordPolicy fs ++ checkSshConfig fs ++ checkSystemSecurity fs

/-- A `pwd` entry as used by `UserGroupScanner._check_root_account`. -/
structure PwdEntry where
  uid : Int
  gid : Int
  shell : String
deriving DecidableEq, Repr

/-- The `CHECK-ERROR` finding of `_check_root_account`
(severity `"info"`, as in every scanner variant other than
`SecurityConfigScanner`). -/
def rootErrorFinding (msg : String) : Finding :=
  { severity := "info", ruleId := "CHECK-ERROR", title := "Root Account Check Error",
    status := "error", description := "Error checking root account: " ++ msg,
    fix := "Ensure proper permissions to read passwd file", checkType := "user_group" }

/-- `UserGroupScanner._check_root_account`; the argument is the
outcome of `pwd.getpwnam("root")` (`.error` models the raised
`KeyError`, caught by the sub-check's handler). -/
def checkRootAccount (pwdResult : Except String PwdEntry) : List Finding :=
  match pwdResult with
  | .error e => [rootErrorFinding e]
  | .ok u =>
    (if u.uid ≠ 0 then
      [{ ruleId := "V-72041", title := "Invalid Root UID", status := "failed",
         severity := "high",
         description := "Root account has invalid UID: " ++ toString u.uid,
         fix := "Restore root account UID to 0", checkType := "user_group" }]
     else []) ++
    (if u.gid ≠ 0 then
      [{ ruleId := "V-72043", title := "Invalid Root GID", status := "failed",
         severity := "high",
         description := "Root account has invalid GID: " ++ toString u.gid,
         fix := "Restore root account GID to 0", checkType := "user_group" }]
     else []) ++
    (if u.shell ∉ ["/bin/bash", "/bin/sh"] then
      [{ ruleId := "V-72045", title := "Invalid Root Shell", status := "failed",
         severity := "medium",
         description := "Root account has invalid shell: " ++ u.shell,
         fix := "chsh -s /bin/bash root", checkType := "user_group" }]
     else [])

/-! ## Theorems -/

/-- Declarative description of the planner's per-finding contribution:
one item for a failed finding with a catalogued rule id, none
otherwise. -/
def planItemFor (f : Finding) : Option PlanItem :=
  if f.status = "failed" then (getRemediationSteps f.ruleId).map (mkPlanItem f) else none

theorem createPlanStep_foldl (findings : List Finding) (acc : List PlanItem) :
    findings.foldl createPlanStep acc = acc ++ findings.filterMap planItemFor := by
  induction findings generalizing acc with
  | nil => simp
  | cons f rest ih =>
    rw [List.foldl_cons, ih, List.filterMap_cons]
    by_cases hst : f.status = "failed"
    · rcases hr : getRemediationSteps f.ruleId with _ | r
      · simp [createPlanStep, planItemFor, hst, hr]
      · simp [createPlanStep, planItemFor, hst, hr]
    · simp [createPlanStep, planItemFor, hst]

/-- C3: `create_plan` yields exactly one `PlanItem`, in finding order,
for each finding with status `"failed"` whose rule id is in the
remediation catalog; findings with another status, and failed
findings with an uncatalogued rule id, contribute no item and no
error. -/
theorem createPlan_items_characterization (findings : List Finding) :
    createPlanItems findings = findings.filterMap planItemFor := by
  rw [createPlanItems, createPlanStep_foldl]
  simp

/-- Replacing a line by the replacement is idempotent per line. -/
theorem subLine_idem (p r : Chars) :
    ((fun l : Chars => if isPref p l then r else l) ∘ fun l : Chars => if isPref p l then r else l)
      = fun l : Chars => if isPref p l then r else l := by
  funext l
  by_cases h : isPref p l = true
  · simp [Function.comp_apply, h]
  · simp [Function.comp_apply, h]

/-- Modelled from the spec: "regex substitution of the **first**
multi-line match" — replace only the first matching line, used to
compare against the source's substitute-all behaviour. -/
def regexSubFirstLines (p r : Chars) : List Chars → List Chars
  | [] => []
  | l :: ls => if isPref p l then r :: ls else l :: regexSubFirstLines p r ls

/-- Modelled from the spec: first-match-only multi-line regex
substitution. -/
def regexSubFirst (p r s : Chars) : Chars := joinNl (regexSubFirstLines p r (splitNl s))

/-- C5 counterexample: on content with two `PermitRootLogin` lines the
source's substitution (Python `Pattern.sub`, which replaces **all**
matches) rewrites both, which differs from the claimed
first-match-only substitution. -/
theorem applyChange_not_first_match_only :
    applyChange (str "PermitRootLogin yes\nx\nPermitRootLogin yes")
        { regex := some (str "PermitRootLogin", str "PermitRootLogin no"),
          appendIfNotFound := none }
      = str "PermitRootLogin no\nx\nPermitRootLogin no" ∧
    regexSubFirst (str "PermitRootLogin") (str "PermitRootLogin no")
        (str "PermitRootLogin yes\nx\nPermitRootLogin yes")
      = str "PermitRootLogin no\nx\nPermitRootLogin yes" ∧
    applyChange (str "PermitRootLogin yes\nx\nPermitRootLogin yes")
        { regex := some (str "PermitRootLogin", str "PermitRootLogin no"),
          appendIfNotFound := none }
      ≠ regexSubFirst (str "PermitRootLogin") (str "PermitRootLogin no")
        (str "PermitRootLogin yes\nx\nPermitRootLogin yes") := by
  refine ⟨by decide, by decide, by decide⟩

/-- C5 (amended): a regex change operation substitutes **every**
multi-line match (every line beginning with the pattern's literal
prefix), not only the first; an append operation appends the literal
line exactly when it is absent as a substring of the current content,
and leaves the content unchanged when it is present. -/
theorem changeOps_characterization (p r s line line2 : Chars)
    (hr : '\n' ∉ r) (habs : hasSub line s = false) (hpres : hasSub line2 s = true) :
    splitNl (applyChange s { regex := some (p, r), appendIfNotFound := none })
        = (splitNl s).map (fun l => if isPref p l then r else l) ∧
    applyChange s { regex := none, appendIfNotFound := some line } = s ++ '\n' :: line ∧
    applyChange s { regex := none, appendIfNotFound := some line2 } = s := by
  refine ⟨?_, ?_, ?_⟩
  · show splitNl (regexSubAll p r s) = _
    exact splitNl_regexSubAll hr
  · show (if hasSub line s then s else s ++ '\n' :: line) = s ++ '\n' :: line
    rw [habs]
    simp
  · show (if hasSub line2 s then s else s ++ '\n' :: line2) = s
    rw [hpres]
    simp

/-- Witness for `changeOps_characterization` at concrete inputs. -/
theorem changeOps_characterization_witness :
    ('\n' ∉ str "Protocol 2" ∧
      hasSub (str "foo") (str "Protocol 1") = false ∧
      hasSub (str "Protocol") (str "Protocol 1") = true) ∧
    (splitNl (applyChange (str "Protocol 1")
          { regex := some (str "Protocol", str "Protocol 2"), appendIfNotFound := none })
        = (splitNl (str "Protocol 1")).map
            (fun l => if isPref (str "Protocol") l then str "Protocol 2" else l) ∧
      applyChange (str "Protocol 1") { regex := none, appendIfNotFound := some (str "foo") }
        = str "Protocol 1" ++ '\n' :: str "foo" ∧
      applyChange (str "Protocol 1") { regex := none, appendIfNotFound := some (str "Protocol") }
        = str "Protocol 1") :=
  ⟨⟨by decide, by decide, by decide⟩,
    changeOps_characterization (str "Protocol") (str "Protocol 2") (str "Protocol 1")
      (str "foo") (str "Protocol") (by decide) (by decide) (by decide)⟩

/-- The V-72435 pattern's literal line prefix (`^PermitRootLogin.*`). -/
def prlPref : Chars := str "PermitRootLogin"

/-- The V-72435 replacement and marker line. -/
def prlNeedle : Chars := str "PermitRootLogin no"

theorem noNl_prlNeedle : '\n' ∉ prlNeedle := by decide

/-- Unfolding the two V-72435 change operations. -/
theorem v72435_apply_eq (s : Chars) :
    applyChanges s remV72435.changes =
      (if hasSub prlNeedle (regexSubAll prlPref prlNeedle s)
        then regexSubAll prlPref prlNeedle s
        else regexSubAll prlPref prlNeedle s ++ '\n' :: prlNeedle) := rfl

/-- Substituting again after the append still changes nothing. -/
theorem regexSubAll_append_needle (s : Chars) :
    regexSubAll prlPref prlNeedle (regexSubAll prlPref prlNeedle s ++ '\n' :: prlNeedle)
      = regexSubAll prlPref prlNeedle s ++ '\n' :: prlNeedle := by
  have hsplit : splitNl (regexSubAll prlPref prlNeedle s ++ '\n' :: prlNeedle)
      = (splitNl s).map (fun l => if isPref prlPref l then prlNeedle else l) ++ [prlNeedle] := by
    rw [splitNl_append_nl, splitNl_regexSubAll noNl_prlNeedle, splitNl_noNl noNl_prlNeedle]
  show joinNl ((splitNl (regexSubAll prlPref prlNeedle s ++ '\n' :: prlNeedle)).map
      (fun l => if isPref prlPref l then prlNeedle else l))
    = regexSubAll prlPref prlNeedle s ++ '\n' :: prlNeedle
  conv_rhs => rw [← joinNl_splitNl (regexSubAll prlPref prlNeedle s ++ '\n' :: prlNeedle)]
  rw [hsplit, List.map_append, List.map_map, subLine_idem]
  congr 1

/-- Core of the idempotence claim for the V-72435 change list: on
content lacking the marker, one application changes the content and
plants the marker; a second application is the identity. -/
theorem v72435_apply_core (s : Chars) (h : hasSub prlNeedle s = false) :
    applyChanges s remV72435.changes ≠ s ∧
    hasSub prlNeedle (applyChanges s remV72435.changes) = true ∧
    applyChanges (applyChanges s remV72435.changes) remV72435.changes
      = applyChanges s remV72435.changes := by
  by_cases hT : hasSub prlNeedle (regexSubAll prlPref prlNeedle s) = true
  · have hu : applyChanges s remV72435.changes = regexSubAll prlPref prlNeedle s := by
      rw [v72435_apply_eq, if_pos hT]
    refine ⟨?_, ?_, ?_⟩
    · intro he
      rw [hu] at he
      rw [he] at hT
      simp [h] at hT
    · rw [hu]
      exact hT
    · rw [hu, v72435_apply_eq, regexSubAll_idem noNl_prlNeedle, if_pos hT]
  · have hu : applyChanges s remV72435.changes
        = regexSubAll prlPref prlNeedle s ++ '\n' :: prlNeedle := by
      rw [v72435_apply_eq, if_neg hT]
    have hmem : hasSub prlNeedle (applyChanges s remV72435.changes) = true := by
      rw [hu]
      exact (hasSub_iff _ _).2 ⟨regexSubAll prlPref prlNeedle s ++ ['\n'], [],
        by simp [List.append_assoc]⟩
    refine ⟨?_, hmem, ?_⟩
    · intro he
      rw [he] at hmem
      simp [h] at hmem
    · rw [hu, v72435_apply_eq, regexSubAll_append_needle]
      rw [← hu, hmem]
      simp [hu]

/-- Symbolic evaluation of `_handle_file_edit` when the target exists,
the content changes and no service restart is configured: one write,
one `changes_made` entry. -/
theorem handleFileEdit_write (host : Host) (w : World) (res : ExecResult)
    (rem : Remediation) (fp : String) (content : Chars)
    (hrf : rem.file = some fp) (hw : getFile w.files fp = some content)
    (hrs : rem.serviceRestart = none)
    (hne : applyChanges content rem.changes ≠ content) :
    handleFileEdit host w res rem =
      { w := { w with files := setFile w.files fp (applyChanges content rem.changes) }
        res := { res with changesMade := res.changesMade ++ ["Updated " ++ fp] }
        evs := [Event.write fp (applyChanges content rem.changes)]
        err := none } := by
  obtain ⟨rt, pkg, cf, fl, st, chs, sr, svc, br⟩ := rem
  dsimp only at hrf hrs hne ⊢
  subst hrf
  subst hrs
  dsimp only [handleFileEdit]
  rw [hw]
  dsimp only
  rw [if_neg hne]

/-- Symbolic evaluation of `_handle_file_edit` when the change
operations leave the content fixed: zero writes, zero entries. -/
theorem handleFileEdit_noop (host : Host) (w : World) (res : ExecResult)
    (rem : Remediation) (fp : String) (content : Chars)
    (hrf : rem.file = some fp) (hw : getFile w.files fp = some content)
    (hrs : rem.serviceRestart = none)
    (heq : applyChanges content rem.changes = content) :
    handleFileEdit host w res rem = { w := w, res := res, evs := [], err := none } := by
  obtain ⟨rt, pkg, cf, fl, st, chs, sr, svc, br⟩ := rem
  dsimp only at hrf hrs heq ⊢
  subst hrf
  subst hrs
  dsimp only [handleFileEdit]
  rw [hw]
  dsimp only
  rw [if_pos heq]

/-- C4 (code bug): the file-edit apply step is idempotent — on content
lacking `"PermitRootLogin no"` the V-72435 change list alters the
content (so `_handle_file_edit` performs exactly one write and records
exactly one change entry) and is the identity on the result (zero
writes, zero further entries) — but the V-72435 catalog entry stores
its target under `config_file` while `_handle_file_edit` reads
`remediation["file"]`, so actually executing the V-72435 item raises
`KeyError("file")` before reading or writing anything. -/
theorem v72435_edit_idempotent_but_keyerror (host : Host) (w : World) (res : ExecResult)
    (rem : Remediation) (fp : String) (s : Chars)
    (h : hasSub prlNeedle s = false)
    (hrf : rem.file = some fp) (hrc : rem.changes = remV72435.changes)
    (hrs : rem.serviceRestart = none) (hw : getFile w.files fp = some s) :
    (applyChanges s remV72435.changes ≠ s ∧
      applyChanges (applyChanges s remV72435.changes) remV72435.changes
        = applyChanges s remV72435.changes) ∧
    (handleFileEdit host w res rem =
      { w := { w with files := setFile w.files fp (applyChanges s remV72435.changes) }
        res := { res with changesMade := res.changesMade ++ ["Updated " ++ fp] }
        evs := [Event.write fp (applyChanges s remV72435.changes)]
        err := none } ∧
      handleFileEdit host
          { w with files := setFile w.files fp (applyChanges s remV72435.changes) } res rem
        = { w := { w with files := setFile w.files fp (applyChanges s remV72435.changes) }
            res := res, evs := [], err := none }) ∧
    handleFileEdit host w res remV72435
      = { w := w, res := res, evs := [], err := some (keyErrorMsg "file") } := by
  obtain ⟨hne, hmem, hfix⟩ := v72435_apply_core s h
  refine ⟨⟨hne, hfix⟩, ⟨?_, ?_⟩, rfl⟩
  · have hk := handleFileEdit_write host w res rem fp s hrf hw hrs (by rw [hrc]; exact hne)
    rw [hrc] at hk
    exact hk
  · exact handleFileEdit_noop host _ res rem fp (applyChanges s remV72435.changes) hrf
      (getFile_setFile _ _ _) hrs (by rw [hrc]; exact hfix)

/-- A host oracle whose external calls all succeed. -/
def hostOk : Host :=
  { apt := fun _ => .ok (0, ""), restart := fun _ => .ok (), enable := fun _ => .ok () }

/-- Concrete world for the C4 witness. -/
def c4World : World :=
  { files := [("/etc/ssh/sshd_config", str "PermitRootLogin yes")], backups := [] }

/-- Concrete result dictionary for the C4 witness. -/
def c4Res : ExecResult :=
  { findingId := "V-72435", title := "SSH Root Login", status := "failed",
    changesMade := [], backupPath := none, error := none }

/-- A `file_edit`-shaped remediation carrying the V-72435 change list
(the shape `_handle_file_edit` expects), for the C4 witness. -/
def c4Rem : Remediation :=
  { rtype := "file_edit", file := some "/etc/ssh/sshd_config", changes := remV72435.changes }

/-- The content after one application of the V-72435 edit in the C4
witness. -/
def c4NewContent : Chars := applyChanges (str "PermitRootLogin yes") remV72435.changes

/-- The world after the first write in the C4 witness. -/
def c4World2 : World :=
  { c4World with files := setFile c4World.files "/etc/ssh/sshd_config" c4NewContent }

/-- Witness for `v72435_edit_idempotent_but_keyerror` at concrete
inputs. -/
theorem v72435_edit_idempotent_but_keyerror_witness :
    (hasSub prlNeedle (str "PermitRootLogin yes") = false ∧
      c4Rem.file = some "/etc/ssh/sshd_config" ∧
      c4Rem.changes = remV72435.changes ∧
      c4Rem.serviceRestart = none ∧
      getFile c4World.files "/etc/ssh/sshd_config" = some (str "PermitRootLogin yes")) ∧
    ((c4NewContent ≠ str "PermitRootLogin yes" ∧
      applyChanges c4NewContent remV72435.changes = c4NewContent) ∧
    (handleFileEdit hostOk c4World c4Res c4Rem =
      { w := c4World2
        res := { c4Res with changesMade := c4Res.changesMade ++ ["Updated " ++ "/etc/ssh/sshd_config"] }
        evs := [Event.write "/etc/ssh/sshd_config" c4NewContent]
        err := none } ∧
      handleFileEdit hostOk c4World2 c4Res c4Rem
        = { w := c4World2, res := c4Res, evs := [], err := none }) ∧
    handleFileEdit hostOk c4World c4Res remV72435
      = { w := c4World, res := c4Res, evs := [], err := some (keyErrorMsg "file") }) :=
  ⟨⟨by decide, rfl, rfl, rfl, by decide⟩,
    v72435_edit_idempotent_but_keyerror hostOk c4World c4Res c4Rem "/etc/ssh/sshd_config"
      (str "PermitRootLogin yes") (by decide) rfl rfl rfl (by decide)⟩

/-- `_handle_file_edit` never touches the backup directory nor the
result's `backup_path`/`status`/`error` fields. -/
theorem handleFileEdit_preserves (host : Host) (w : World) (res : ExecResult)
    (rem : Remediation) :
    (handleFileEdit host w res rem).w.backups = w.backups ∧
    (handleFileEdit host w res rem).res.backupPath = res.backupPath ∧
    (handleFileEdit host w res rem).res.status = res.status ∧
    (handleFileEdit host w res rem).res.error = res.error := by
  dsimp only [handleFileEdit]
  repeat' split
  all_goals exact ⟨rfl, rfl, rfl, rfl⟩

/-- Same preservation for `_handle_package_installation`. -/
theorem handlePackageInstallation_preserves (host : Host) (w : World) (res : ExecResult)
    (rem : Remediation) :
    (handlePackageInstallation host w res rem).w.backups = w.backups ∧
    (handlePackageInstallation host w res rem).res.backupPath = res.backupPath ∧
    (handlePackageInstallation host w res rem).res.status = res.status ∧
    (handlePackageInstallation host w res rem).res.error = res.error := by
  dsimp only [handlePackageInstallation]
  repeat' split
  all_goals exact ⟨rfl, rfl, rfl, rfl⟩

/-- Same preservation for `_handle_service_config`. -/
theorem handleServiceConfig_preserves (host : Host) (w : World) (res : ExecResult)
    (rem : Remediation) :
    (handleServiceConfig host w res rem).w.backups = w.backups ∧
    (handleServiceConfig host w res rem).res.backupPath = res.backupPath ∧
    (handleServiceConfig host w res rem).res.status = res.status ∧
    (handleServiceConfig host w res rem).res.error = res.error := by
  have h := handleFileEdit_preserves host w res rem
  dsimp only [handleServiceConfig]
  repeat' split
  all_goals exact ⟨h.1, h.2.1, h.2.2.1, h.2.2.2⟩

/-- Same preservation for the type dispatch. -/
theorem dispatchRemediation_preserves (host : Host) (w : World) (res : ExecResult)
    (rem : Remediation) :
    (dispatchRemediation host w res rem).w.backups = w.backups ∧
    (dispatchRemediation host w res rem).res.backupPath = res.backupPath ∧
    (dispatchRemediation host w res rem).res.status = res.status ∧
    (dispatchRemediation host w res rem).res.error = res.error := by
  unfold dispatchRemediation
  repeat' split
  · exact handlePackageInstallation_preserves host w res rem
  · exact handleFileEdit_preserves host w res rem
  · exact handleServiceConfig_preserves host w res rem
  · exact ⟨rfl, rfl, rfl, rfl⟩

/-- Restoring from backup touches only `files`. -/
theorem restoreFromBackup_backups (w : World) (bp : String) (rem : Remediation) :
    (restoreFromBackup w bp rem).1.backups = w.backups := by
  dsimp only [restoreFromBackup]
  repeat' split
  all_goals rfl

/-- No handler reads `backup_required`, so the dispatch result does
not depend on it. -/
theorem dispatchRemediation_ignores_backupRequired (host : Host) (w : World)
    (res : ExecResult) (rem : Remediation) (b : Option Bool) :
    dispatchRemediation host w res { rem with backupRequired := b }
      = dispatchRemediation host w res rem := by
  obtain ⟨rt, pkg, cf, fl, st, chs, sr, svc, br⟩ := rem
  rfl

/-- C6: when `backup_required` is set and the target exists, the
backup (preserving the target's contents) is taken and its path
recorded in the result strictly before any mutation — the backup is
the first emitted event; when the target does not exist, no backup is
taken, `backup_path` stays unset, and the item proceeds exactly as it
would without the backup requirement. -/
theorem executeItem_backup_before_mutation (host : Host) (w1 w2 : World) (item : PlanItem)
    (t : String) (c : Chars)
    (hbr : item.remediation.backupRequired = some true)
    (hsrc : backupSource item.remediation = some t)
    (hex : getFile w1.files t = some c)
    (habs : getFile w2.files t = none) :
    ((executeItem host w1 item).1.backupPath = some (backupName t) ∧
      getFile (executeItem host w1 item).2.1.backups (backupName t) = some c ∧
      (executeItem host w1 item).2.2.head? = some (Event.backup t (backupName t) c)) ∧
    ((executeItem host w2 item).1.backupPath = none ∧
      executeItem host w2 item
        = executeItem host w2
            { item with remediation := { item.remediation with backupRequired := none } }) := by
  have hguard : item.remediation.backupRequired.getD false = true := by rw [hbr]; rfl
  have hcb1 : createBackup w1 item.remediation = some (backupName t, c) := by
    simp only [createBackup, hsrc, hex]
  have hcb2 : createBackup w2 item.remediation = none := by
    simp only [createBackup, hsrc, habs]
  constructor
  · unfold executeItem
    simp only [hguard, if_true, hcb1, hsrc, Option.getD_some]
    have pres := dispatchRemediation_preserves host
      { w1 with backups := setFile w1.backups (backupName t) c }
      { findingId := item.findingId, title := item.title, status := "failed",
        changesMade := [], backupPath := some (backupName t), error := none }
      item.remediation
    cases herr : (dispatchRemediation host
        { w1 with backups := setFile w1.backups (backupName t) c }
        { findingId := item.findingId, title := item.title, status := "failed",
          changesMade := [], backupPath := some (backupName t), error := none }
        item.remediation).err with
    | none =>
      dsimp only
      exact ⟨pres.2.1, by rw [pres.1]; exact getFile_setFile _ _ _, rfl⟩
    | some e =>
      have hbp : (dispatchRemediation host
          { w1 with backups := setFile w1.backups (backupName t) c }
          { findingId := item.findingId, title := item.title, status := "failed",
            changesMade := [], backupPath := some (backupName t), error := none }
          item.remediation).res.backupPath = some (backupName t) := pres.2.1
      dsimp only
      rw [hbp]
      dsimp only
      refine ⟨rfl, ?_, rfl⟩
      rw [restoreFromBackup_backups, pres.1]
      exact getFile_setFile _ _ _
  · constructor
    · unfold executeItem
      simp only [hguard, if_true, hcb2]
      have pres := dispatchRemediation_preserves host w2
        { findingId := item.findingId, title := item.title, status := "failed",
          changesMade := [], backupPath := none, error := none }
        item.remediation
      cases herr : (dispatchRemediation host w2
          { findingId := item.findingId, title := item.title, status := "failed",
            changesMade := [], backupPath := none, error := none }
          item.remediation).err with
      | none =>
        dsimp only
        exact pres.2.1
      | some e =>
        have hbp : (dispatchRemediation host w2
            { findingId := item.findingId, title := item.title, status := "failed",
              changesMade := [], backupPath := none, error := none }
            item.remediation).res.backupPath = none := pres.2.1
        dsimp only
        rw [hbp]
    · unfold executeItem
      simp only [hguard, if_true, hcb2, Option.getD_none, Bool.false_eq_true, if_false]
      rfl

/-- The plan item produced for the V-72435 finding. -/
def c6Item : PlanItem := mkPlanItem v72435Finding remV72435

/-- A world where the SSH config exists. -/
def c6W1 : World :=
  { files := [("/etc/ssh/sshd_config", str "PermitRootLogin yes")], backups := [] }

/-- A world where the SSH config is absent. -/
def c6W2 : World := { files := [], backups := [] }

/-- Witness for `executeItem_backup_before_mutation` at concrete
inputs. -/
theorem executeItem_backup_before_mutation_witness :
    (c6Item.remediation.backupRequired = some true ∧
      backupSource c6Item.remediation = some "/etc/ssh/sshd_config" ∧
      getFile c6W1.files "/etc/ssh/sshd_config" = some (str "PermitRootLogin yes") ∧
      getFile c6W2.files "/etc/ssh/sshd_config" = none) ∧
    (((executeItem hostOk c6W1 c6Item).1.backupPath
        = some (backupName "/etc/ssh/sshd_config") ∧
      getFile (executeItem hostOk c6W1 c6Item).2.1.backups (backupName "/etc/ssh/sshd_config")
        = some (str "PermitRootLogin yes") ∧
      (executeItem hostOk c6W1 c6Item).2.2.head?
        = some (Event.backup "/etc/ssh/sshd_config" (backupName "/etc/ssh/sshd_config")
            (str "PermitRootLogin yes"))) ∧
    ((executeItem hostOk c6W2 c6Item).1.backupPath = none ∧
      executeItem hostOk c6W2 c6Item
        = executeItem hostOk c6W2
            { c6Item with remediation := { c6Item.remediation with backupRequired := none } })) :=
  ⟨⟨rfl, rfl, rfl, rfl⟩,
    executeItem_backup_before_mutation hostOk c6W1 c6W2 c6Item "/etc/ssh/sshd_config"
      (str "PermitRootLogin yes") rfl rfl rfl rfl⟩

/-- The item loop composes over list append: running `xs ++ ys` runs
`xs` first, then `ys` from the world `xs` left behind, and the result
and event lists concatenate — so a later item's failure cannot alter
the results of earlier items. -/
theorem runItems_append (host : Host) (xs ys : List PlanItem) (app : List String) (w : World) :
    runItems host (xs ++ ys) app w
      = ((runItems host xs app w).1 ++ (runItems host ys app (runItems host xs app w).2.1).1,
          (runItems host ys app (runItems host xs app w).2.1).2.1,
          (runItems host xs app w).2.2
            ++ (runItems host ys app (runItems host xs app w).2.1).2.2) := by
  induction xs generalizing w with
  | nil => simp [runItems]
  | cons it rest ih =>
    by_cases h : it.findingId ∈ app
    · simp only [List.cons_append, runItems, if_pos h, List.append_eq, ih, List.append_assoc]
    · simp only [List.cons_append, runItems, if_neg h, List.append_eq, ih]

/-- The last element of a list ending in an explicit singleton. -/
theorem getLast?_append_one {α : Type} (l : List α) (x : α) :
    (l ++ [x]).getLast? = some x := by
  induction l with
  | nil => rfl
  | cons a rest ih =>
    cases rest with
    | nil => rfl
    | cons b rest2 =>
      rw [List.cons_append, List.cons_append, List.getLast?_cons_cons, ← List.cons_append]
      exact ih

/-- C7: an exception while applying an item is caught at item
granularity — the result keeps status `"failed"` with the error
message, and, the backup having been taken, the target (selected by
`config_file` or, failing that, the `file` key — the same selection
`_create_backup` and `_restore_from_backup` make) is restored so its
final content equals the pre-mutation content, the restore being the
last emitted event; results of items run earlier in the same plan are
exactly the earlier run's results (no plan-level rollback). -/
theorem executeItem_failure_rollback (host : Host) (w : World) (item : PlanItem)
    (t : String) (c : Chars) (e : String)
    (xs ys : List PlanItem) (app : List String) (w0 : World)
    (hsrc : backupSource item.remediation = some t)
    (hres : pyOrPath item.remediation.configFile item.remediation.file = some t)
    (ht : ¬ t = "")
    (hbr : item.remediation.backupRequired = some true)
    (hget : getFile w.files t = some c)
    (herr : (executeItem host w item).1.error = some e) :
    (executeItem host w item).1.status = "failed" ∧
    (executeItem host w item).1.backupPath = some (backupName t) ∧
    getFile (executeItem host w item).2.1.files t = some c ∧
    (executeItem host w item).2.2.getLast? = some (Event.restore t c) ∧
    (runItems host (xs ++ ys) app w0).1.take (runItems host xs app w0).1.length
      = (runItems host xs app w0).1 := by
  have hguard : item.remediation.backupRequired.getD false = true := by rw [hbr]; rfl
  have hcb : createBackup w item.remediation = some (backupName t, c) := by
    simp only [createBackup, hsrc, hget]
  have htake : (runItems host (xs ++ ys) app w0).1.take (runItems host xs app w0).1.length
      = (runItems host xs app w0).1 := by
    rw [runItems_append]
    exact List.take_left _ _
  unfold executeItem at herr ⊢
  simp only [hguard, if_true, hcb, hsrc, Option.getD_some] at herr ⊢
  have pres := dispatchRemediation_preserves host
    { w with backups := setFile w.backups (backupName t) c }
    { findingId := item.findingId, title := item.title, status := "failed",
      changesMade := [], backupPath := some (backupName t), error := none }
    item.remediation
  cases herr2 : (dispatchRemediation host
      { w with backups := setFile w.backups (backupName t) c }
      { findingId := item.findingId, title := item.title, status := "failed",
        changesMade := [], backupPath := some (backupName t), error := none }
      item.remediation).err with
  | none =>
    rw [herr2] at herr
    dsimp only at herr
    have hne : (dispatchRemediation host
        { w with backups := setFile w.backups (backupName t) c }
        { findingId := item.findingId, title := item.title, status := "failed",
          changesMade := [], backupPath := some (backupName t), error := none }
        item.remediation).res.error = none := pres.2.2.2
    rw [hne] at herr
    cases herr
  | some e2 =>
    have hbp : (dispatchRemediation host
        { w with backups := setFile w.backups (backupName t) c }
        { findingId := item.findingId, title := item.title, status := "failed",
          changesMade := [], backupPath := some (backupName t), error := none }
        item.remediation).res.backupPath = some (backupName t) := pres.2.1
    dsimp only at herr ⊢
    rw [hbp] at herr ⊢
    dsimp only at herr ⊢
    have hst : (dispatchRemediation host
        { w with backups := setFile w.backups (backupName t) c }
        { findingId := item.findingId, title := item.title, status := "failed",
          changesMade := [], backupPath := some (backupName t), error := none }
        item.remediation).res.status = "failed" := pres.2.2.1
    have hbk : getFile (dispatchRemediation host
        { w with backups := setFile w.backups (backupName t) c }
        { findingId := item.findingId, title := item.title, status := "failed",
          changesMade := [], backupPath := some (backupName t), error := none }
        item.remediation).w.backups (backupName t) = some c := by
      rw [pres.1]
      exact getFile_setFile _ _ _
    refine ⟨hst, rfl, ?_, ?_, htake⟩
    · simp only [restoreFromBackup, hbk, hres, if_neg ht]
      exact getFile_setFile _ _ _
    · simp only [restoreFromBackup, hbk, hres, if_neg ht]
      exact getLast?_append_one _ _

/-- A host oracle whose service restarts fail (modelling the spawn of
`systemctl restart` raising an `OSError`), other calls succeeding. -/
def hostRestartFails : Host :=
  { apt := fun _ => .ok (0, ""), restart := fun _ => .error "restart failed",
    enable := fun _ => .ok () }

/-- The plan item produced for the V-72433 finding (a `file_edit`
remediation whose target sits under the `file` key). -/
def c7Item : PlanItem := mkPlanItem v72433Finding remV72433

/-- A world whose SSH config lacks `"Protocol 2"`, so the V-72433 edit
really rewrites the file. -/
def c7W : World := { files := [("/etc/ssh/sshd_config", str "Protocol 1")], backups := [] }

/-- Witness for `executeItem_failure_rollback` at concrete inputs —
the claim's cited scenario: the V-72433 `file_edit` write succeeds
(one write event, one change entry), the subsequent `ssh` restart
raises, and the recorded backup restores the pre-mutation content
byte-for-byte; the trace is exactly backup, write, restore. -/
theorem executeItem_failure_rollback_witness :
    (backupSource c7Item.remediation = some "/etc/ssh/sshd_config" ∧
      pyOrPath c7Item.remediation.configFile c7Item.remediation.file
        = some "/etc/ssh/sshd_config" ∧
      ¬ "/etc/ssh/sshd_config" = "" ∧
      c7Item.remediation.backupRequired = some true ∧
      getFile c7W.files "/etc/ssh/sshd_config" = some (str "Protocol 1") ∧
      (executeItem hostRestartFails c7W c7Item).1.error = some "restart failed") ∧
    ((executeItem hostRestartFails c7W c7Item).1.status = "failed" ∧
      (executeItem hostRestartFails c7W c7Item).1.backupPath
        = some (backupName "/etc/ssh/sshd_config") ∧
      getFile (executeItem hostRestartFails c7W c7Item).2.1.files "/etc/ssh/sshd_config"
        = some (str "Protocol 1") ∧
      (executeItem hostRestartFails c7W c7Item).2.2.getLast?
        = some (Event.restore "/etc/ssh/sshd_config" (str "Protocol 1")) ∧
      (runItems hostRestartFails ([c7Item] ++ [c7Item]) [] c6W2).1.take
          (runItems hostRestartFails [c7Item] [] c6W2).1.length
        = (runItems hostRestartFails [c7Item] [] c6W2).1) ∧
    (executeItem hostRestartFails c7W c7Item).2.2
      = [Event.backup "/etc/ssh/sshd_config" (backupName "/etc/ssh/sshd_config")
            (str "Protocol 1"),
          Event.write "/etc/ssh/sshd_config" (str "Protocol 2"),
          Event.restore "/etc/ssh/sshd_config" (str "Protocol 1")] ∧
    (executeItem hostRestartFails c7W c7Item).1.changesMade
      = ["Updated /etc/ssh/sshd_config"] :=
  ⟨⟨rfl, rfl, by decide, rfl, rfl, rfl⟩,
    executeItem_failure_rollback hostRestartFails c7W c7Item "/etc/ssh/sshd_config"
      (str "Protocol 1") "restart failed" [c7Item] [c7Item] [] c6W2
      rfl rfl (by decide) rfl rfl rfl,
    rfl, rfl⟩

/-! ## Plan-level theorems (C1, C9, C10) -/

/-- The Execution status of an `execute_plan` outcome. -/
def execStatusOf (r : Except String (Execution × DB × World × List Event)) : Option String :=
  match r with
  | .ok (e, _, _, _) => some e.status
  | .error _ => none

/-- The per-item statuses of an `execute_plan` outcome. -/
def itemStatusesOf (r : Except String (Execution × DB × World × List Event)) :
    Option (List String) :=
  match r with
  | .ok (e, _, _, _) => some (e.items.map ExecResult.status)
  | .error _ => none

/-- The persisted status of a plan after an `execute_plan` outcome
(the last status value the store holds for it). -/
def planStatusAfter (r : Except String (Execution × DB × World × List Event))
    (pid : String) : Option String :=
  match r with
  | .ok (_, db2, _, _) => (findPlan db2.plans pid).bind (fun sp => sp.statusHistory.getLast?)
  | .error _ => none

theorem findPlan_updatePlans (plans : List StoredPlan) (pid st : String) :
    findPlan (plans.map (fun sp =>
        if sp.planId = pid then { sp with statusHistory := sp.statusHistory ++ [st] } else sp))
        pid
      = (findPlan plans pid).map
          (fun q => { q with statusHistory := q.statusHistory ++ [st] }) := by
  induction plans with
  | nil => rfl
  | cons sp rest ih =>
    obtain ⟨pid0, sid0, items0, hist0⟩ := sp
    by_cases h : pid0 = pid
    · simp [findPlan, h]
    · simp [findPlan, h, ih]

/-- When nothing is approved the item loop does nothing. -/
theorem runItems_none_approved (host : Host) (items : List PlanItem)
    (approved : List String) (w : World)
    (h : ∀ it ∈ items, it.findingId ∉ approved) :
    runItems host items approved w = ([], w, []) := by
  induction items with
  | nil => rfl
  | cons it rest ih =>
    have h1 : it.findingId ∉ approved := h it (List.mem_cons_self _ _)
    simp only [runItems, if_neg h1]
    exact ih (fun x hx => h x (List.mem_cons.2 (Or.inr hx)))

/-- C10: executing a stored plan with an approved list matching none
of its items mutates no host state, produces an Execution with an
empty item list and status `"completed"`, and persists the plan
status `"completed"`. -/
theorem executePlan_no_approved (host : Host) (db : DB) (w : World) (pid : String)
    (approved : List String) (sp : StoredPlan)
    (hfind : findPlan db.plans pid = some sp)
    (hnone : ∀ it ∈ sp.items, it.findingId ∉ approved) :
    executePlan host db w pid approved =
      .ok ({ planId := pid, items := [], status := "completed" },
        updateStatus
          { db with executions :=
              { planId := pid, items := [], status := "completed" } :: db.executions }
          pid "completed",
        w, []) ∧
    execStatusOf (executePlan host db w pid approved) = some "completed" ∧
    planStatusAfter (executePlan host db w pid approved) pid
      = some "completed" := by
  have hrun := runItems_none_approved host sp.items approved w hnone
  have hmain : executePlan host db w pid approved =
      .ok ({ planId := pid, items := [], status := "completed" },
        updateStatus
          { db with executions :=
              { planId := pid, items := [], status := "completed" } :: db.executions }
          pid "completed",
        w, []) := by
    unfold executePlan
    rw [hfind]
    dsimp only
    rw [hrun]
  refine ⟨hmain, ?_, ?_⟩
  · rw [hmain]
    rfl
  · rw [hmain]
    show (findPlan (updateStatus _ pid "completed").plans pid).bind
        (fun sp => sp.statusHistory.getLast?) = some "completed"
    unfold updateStatus
    rw [findPlan_updatePlans]
    rw [hfind]
    simp

/-- The database after storing the plan derived from a scan that found
V-72435 failed. -/
def c10DB : DB := (createPlan { plans := [], executions := [] } "scan1" [v72435Finding]).2

/-- The stored plan inside `c10DB`. -/
def c10Plan : StoredPlan :=
  { planId := planIdFor "scan1", scanId := "scan1", items := [c6Item],
    statusHistory := ["pending"] }

/-- Witness for `executePlan_no_approved` at concrete inputs (empty
approved list). -/
theorem executePlan_no_approved_witness :
    (findPlan c10DB.plans (planIdFor "scan1") = some c10Plan ∧
      ∀ it ∈ c10Plan.items, it.findingId ∉ ([] : List String)) ∧
    (executePlan hostOk c10DB c6W2 (planIdFor "scan1") [] =
      .ok ({ planId := planIdFor "scan1", items := [], status := "completed" },
        updateStatus
          { c10DB with executions :=
              { planId := planIdFor "scan1", items := [], status := "completed" }
                :: c10DB.executions }
          (planIdFor "scan1") "completed",
        c6W2, []) ∧
    execStatusOf (executePlan hostOk c10DB c6W2 (planIdFor "scan1") []) = some "completed" ∧
    planStatusAfter (executePlan hostOk c10DB c6W2 (planIdFor "scan1") []) (planIdFor "scan1")
      = some "completed") :=
  ⟨⟨rfl, by decide⟩,
    executePlan_no_approved hostOk c10DB c6W2 (planIdFor "scan1") [] c10Plan rfl (by decide)⟩

/-- C1 (amended): for every stored plan, `execute_plan` ends with
Execution status `"completed"` and persists the plan status
`"completed"`, regardless of whether the processed items succeeded —
per-item failures are caught inside `_execute_remediation_item`, so
the `except` branch that would set `"failed"` never fires. -/
theorem executePlan_status_completed_regardless (host : Host) (db : DB) (w : World)
    (pid : String) (approved : List String) (sp : StoredPlan)
    (hfind : findPlan db.plans pid = some sp) :
    execStatusOf (executePlan host db w pid approved) = some "completed" ∧
    planStatusAfter (executePlan host db w pid approved) pid = some "completed" := by
  unfold executePlan
  rw [hfind]
  dsimp only
  constructor
  · rfl
  · show (findPlan (updateStatus _ pid "completed").plans pid).bind
        (fun sp => sp.statusHistory.getLast?) = some "completed"
    unfold updateStatus
    rw [findPlan_updatePlans, hfind]
    simp

/-- Witness for `executePlan_status_completed_regardless` at concrete
inputs. -/
theorem executePlan_status_completed_regardless_witness :
    findPlan c10DB.plans (planIdFor "scan1") = some c10Plan ∧
    (execStatusOf (executePlan hostOk c10DB c6W2 (planIdFor "scan1") ["V-72435"])
        = some "completed" ∧
      planStatusAfter (executePlan hostOk c10DB c6W2 (planIdFor "scan1") ["V-72435"])
          (planIdFor "scan1")
        = some "completed") :=
  ⟨rfl, executePlan_status_completed_regardless hostOk c10DB c6W2 (planIdFor "scan1")
    ["V-72435"] c10Plan rfl⟩

/-- C1 counterexample: approving the V-72435 item with its backing
file absent makes the item's ExecutionResult `"failed"`, yet the
Execution's overall status and the persisted plan status are both
`"completed"` — not `"failed"` as claimed. -/
theorem executePlan_failed_item_still_completed :
    itemStatusesOf (executePlan hostOk c10DB c6W2 (planIdFor "scan1") ["V-72435"])
      = some ["failed"] ∧
    execStatusOf (executePlan hostOk c10DB c6W2 (planIdFor "scan1") ["V-72435"])
      = some "completed" ∧
    planStatusAfter (executePlan hostOk c10DB c6W2 (planIdFor "scan1") ["V-72435"])
        (planIdFor "scan1")
      = some "completed" :=
  ⟨rfl, rfl, rfl⟩

/-- Repeated `execute_plan` calls on one plan (the plan lifecycle as
the engine can actually drive it). -/
def runExecs (host : Host) (db : DB) (w : World) (pid : String) :
    List (List String) → DB × World
  | [] => (db, w)
  | app :: rest =>
    match executePlan host db w pid app with
    | .ok (_, db2, w2, _) => runExecs host db2 w2 pid rest
    | .error _ => (db, w)

/-- The execution record `execute_plan` stores for a finished run. -/
def execRecordOf (pid : String) (rs : List ExecResult) : Execution :=
  { planId := pid, items := rs, status := "completed" }

/-- Full outcome of `execute_plan` on a stored plan. -/
theorem executePlan_ok (host : Host) (db : DB) (w : World) (pid : String)
    (approved : List String) (sp : StoredPlan)
    (hfind : findPlan db.plans pid = some sp) :
    executePlan host db w pid approved =
      .ok (execRecordOf pid (runItems host sp.items approved w).1,
        updateStatus
          { db with
            executions := execRecordOf pid (runItems host sp.items approved w).1
              :: db.executions }
          pid "completed",
        (runItems host sp.items approved w).2.1,
        (runItems host sp.items approved w).2.2) := by
  unfold executePlan
  rw [hfind]
  rfl

/-- The stored plan after one `execute_plan`: same row, history
extended by the new status. -/
theorem findPlan_after_update (db : DB) (pid st : String) (sp : StoredPlan)
    (exec : Execution) (hfind : findPlan db.plans pid = some sp) :
    findPlan (updateStatus { db with executions := exec :: db.executions } pid st).plans pid
      = some { sp with statusHistory := sp.statusHistory ++ [st] } := by
  unfold updateStatus
  dsimp only
  rw [findPlan_updatePlans, hfind]
  rfl

theorem runExecs_history (host : Host) (pid : String) (apps : List (List String)) :
    ∀ (db : DB) (w : World) (sp : StoredPlan), findPlan db.plans pid = some sp →
      (findPlan (runExecs host db w pid apps).1.plans pid).map StoredPlan.statusHistory
        = some (sp.statusHistory ++ apps.map (fun _ => "completed")) := by
  induction apps with
  | nil =>
    intro db w sp h
    simp [runExecs, h]
  | cons app rest ih =>
    intro db w sp h
    rw [runExecs, executePlan_ok host db w pid app sp h]
    dsimp only
    rw [ih _ _ _ (findPlan_after_update db pid "completed" sp _ h)]
    simp

/-- C9 (amended): the persisted plan status history produced by
`create_plan` followed by any sequence of `execute_plan` calls is
exactly `"pending"` followed by one `"completed"` per call —
`"in_progress"` is never persisted for the plan (it exists only on
the in-memory execution record), and item failures never persist
`"failed"`. -/
theorem planStatus_pending_then_completed (host : Host) (db : DB) (w : World)
    (scanId : String) (findings : List Finding) (apps : List (List String)) :
    (findPlan (runExecs host (createPlan db scanId findings).2 w (planIdFor scanId)
          apps).1.plans (planIdFor scanId)).map StoredPlan.statusHistory
      = some ("pending" :: apps.map (fun _ => "completed")) := by
  have hfind : findPlan ((createPlan db scanId findings).2).plans (planIdFor scanId)
      = some (createPlan db scanId findings).1 := by
    unfold createPlan
    dsimp only
    simp [findPlan]
  rw [runExecs_history host (planIdFor scanId) apps _ w _ hfind]
  rfl

/-- C9 counterexample: creating a plan and executing its (failing)
V-72435 item persists the status sequence `["pending", "completed"]`
— `"in_progress"` is never persisted before (or while) the item runs,
and the claimed `pending → in_progress → …` chain does not occur. -/
theorem planHistory_never_in_progress :
    (findPlan (runExecs hostOk c10DB c6W2 (planIdFor "scan1") [["V-72435"]]).1.plans
        (planIdFor "scan1")).map StoredPlan.statusHistory
      = some ["pending", "completed"] ∧
    itemStatusesOf (executePlan hostOk c10DB c6W2 (planIdFor "scan1") ["V-72435"])
      = some ["failed"] ∧
    "in_progress" ∉ (["pending", "completed"] : List String) :=
  ⟨rfl, rfl, by decide⟩

/-! ## Scanner theorems (C2) -/

/-- C2 counterexample: forcing every sub-check of the security-config
scanner to fail (all three files absent) yields only `CHECK-ERROR`
findings, none of which has severity `"info"` — this scanner writes
severity `"error"`. -/
theorem securityConfigScan_checkError_not_info :
    (securityConfigScan []).all (fun f => f.ruleId == "CHECK-ERROR") = true ∧
    (securityConfigScan []).all (fun f => f.severity == "error") = true ∧
    (securityConfigScan []).any (fun f => f.severity == "info") = false :=
  ⟨rfl, rfl, rfl⟩

/-- C2 (amended): a failing sub-check never escapes `scan()` — it is
converted into a `CHECK-ERROR` finding with status `"error"` carrying
the failure description.  The severity of that finding is `"info"` in
the file-permission, service and user/group scanners (root-account
check shown) but `"error"` in the security-config scanner. -/
theorem scan_check_failure_isolated (fs : Fs) (e : String)
    (hpam : getFile fs "/etc/pam.d/common-password" = none) :
    pwErrorFinding (fileNotFoundMsg "/etc/pam.d/common-password") ∈ securityConfigScan fs ∧
    (pwErrorFinding (fileNotFoundMsg "/etc/pam.d/common-password")).ruleId = "CHECK-ERROR" ∧
    (pwErrorFinding (fileNotFoundMsg "/etc/pam.d/common-password")).status = "error" ∧
    (pwErrorFinding (fileNotFoundMsg "/etc/pam.d/common-password")).severity = "error" ∧
    checkRootAccount (.error e) = [rootErrorFinding e] ∧
    (rootErrorFinding e).ruleId = "CHECK-ERROR" ∧
    (rootErrorFinding e).status = "error" ∧
    (rootErrorFinding e).severity = "info" := by
  refine ⟨?_, rfl, rfl, rfl, rfl, rfl, rfl, rfl⟩
  simp [securityConfigScan, checkPasswordPolicy, hpam]

/-- Witness for `scan_check_failure_isolated` at concrete inputs. -/
theorem scan_check_failure_isolated_witness :
    getFile ([] : Fs) "/etc/pam.d/common-password" = none ∧
    (pwErrorFinding (fileNotFoundMsg "/etc/pam.d/common-password") ∈ securityConfigScan [] ∧
      (pwErrorFinding (fileNotFoundMsg "/etc/pam.d/common-password")).ruleId = "CHECK-ERROR" ∧
      (pwErrorFinding (fileNotFoundMsg "/etc/pam.d/common-password")).status = "error" ∧
      (pwErrorFinding (fileNotFoundMsg "/etc/pam.d/common-password")).severity = "error" ∧
      checkRootAccount (.error "boom") = [rootErrorFinding "boom"] ∧
      (rootErrorFinding "boom").ruleId = "CHECK-ERROR" ∧
      (rootErrorFinding "boom").status = "error" ∧
      (rootErrorFinding "boom").severity = "info") :=
  ⟨rfl, scan_check_failure_isolated [] "boom" rfl⟩

/-! ## `_update_config_file` theorems (C8) -/

/-- What `_update_config_file` does to one input line: strip it; if it
carries `=` and its key is in the settings, rewrite it to the
canonical `key = value` line; otherwise keep the stripped line. -/
def transformLine (settings : List (Chars × Chars)) (l0 : Chars) : Chars :=
  if lineHasEq (pyStrip l0) then
    match settingsLookup settings (keyOf (pyStrip l0)) with
    | some v => kvLine (keyOf (pyStrip l0)) v
    | none => pyStrip l0
  else pyStrip l0

/-- Whether a config line (after stripping) assigns the key `k`. -/
def definesKey (k : Chars) (l0 : Chars) : Bool :=
  lineHasEq (pyStrip l0) && (keyOf (pyStrip l0) == k)

/-- The `key = value` lines appended for settings keys no input line
defines. -/
def missingKvLines (settings : List (Chars × Chars)) (ls : List Chars) : List Chars :=
  (settings.filter (fun kv => !ls.any (definesKey kv.1))).map (fun kv => kvLine kv.1 kv.2)

/-- C8 counterexample: a line whose key is *not* in the settings map
is still rewritten — its surrounding whitespace is stripped — so the
claim that every other line is left unchanged fails. -/
theorem updateConfig_strips_untouched_lines :
    (updateConfigContent (str "  keep  me\nminlen = 9") [(str "minlen", str "14")]
        "/etc/security/pwquality.conf").1
      = str "keep  me\nminlen = 14" ∧
    (updateConfigContent (str "  keep  me\nminlen = 9") [(str "minlen", str "14")]
        "/etc/security/pwquality.conf").1
      ≠ str "  keep  me\nminlen = 14" ∧
    (updateConfigContent (str "  keep  me\nminlen = 9") [(str "minlen", str "14")]
        "/etc/security/pwquality.conf").2
      = ["Updated minlen in /etc/security/pwquality.conf"] := by
  refine ⟨by decide, by decide, ?_⟩
  show _ = [("Updated " ++ ofChars (str "minlen") ++ " in " ++ "/etc/security/pwquality.conf" : String)]
  decide

theorem updateLineStep_fst (settings : List (Chars × Chars)) (path : String)
    (ls : List Chars) :
    ∀ acc : List Chars × List Chars × List String,
      (ls.foldl (updateLineStep settings path) acc).1
        = acc.1 ++ ls.map (transformLine settings) := by
  induction ls with
  | nil => intro acc; simp
  | cons l rest ih =>
    intro acc
    rw [List.foldl_cons, ih, List.map_cons]
    have hstep : (updateLineStep settings path acc l).1
        = acc.1 ++ [transformLine settings l] := by
      unfold updateLineStep transformLine
      dsimp only
      by_cases h : lineHasEq (pyStrip l) = true
      · simp only [if_pos h]
        cases hlk : settingsLookup settings (keyOf (pyStrip l)) with
        | some v => rfl
        | none => rfl
      · simp only [if_neg h]
    rw [hstep, List.append_assoc]
    rfl

theorem updateLineStep_found (settings : List (Chars × Chars)) (path : String)
    (ls : List Chars) (k : Chars) (hk : (settingsLookup settings k).isSome = true) :
    ∀ acc : List Chars × List Chars × List String,
      (k ∈ (ls.foldl (updateLineStep settings path) acc).2.1
        ↔ k ∈ acc.2.1 ∨ ls.any (definesKey k) = true) := by
  induction ls with
  | nil => intro acc; simp
  | cons l rest ih =>
    intro acc
    rw [List.foldl_cons, ih, List.any_cons]
    by_cases h : lineHasEq (pyStrip l) = true
    · cases hlk : settingsLookup settings (keyOf (pyStrip l)) with
      | some v =>
        have hsnd : (updateLineStep settings path acc l).2.1
            = keyOf (pyStrip l) :: acc.2.1 := by
          unfold updateLineStep
          dsimp only
          simp only [if_pos h, hlk]
        rw [hsnd]
        simp only [List.mem_cons, definesKey, h, Bool.true_and, Bool.or_eq_true,
          beq_iff_eq]
        constructor
        · rintro ((h1 | h1) | h1)
          · exact Or.inr (Or.inl h1.symm)
          · exact Or.inl h1
          · exact Or.inr (Or.inr h1)
        · rintro (h1 | h1 | h1)
          · exact Or.inl (Or.inr h1)
          · exact Or.inl (Or.inl h1.symm)
          · exact Or.inr h1
      | none =>
        have hsnd : (updateLineStep settings path acc l).2.1 = acc.2.1 := by
          unfold updateLineStep
          dsimp only
          simp only [if_pos h, hlk]
        have hdk : definesKey k l = false := by
          unfold definesKey
          rw [h, Bool.true_and]
          by_cases he : keyOf (pyStrip l) = k
          · rw [he] at hlk
            rw [hlk] at hk
            cases hk
          · exact beq_eq_false_iff_ne.2 he
        rw [hsnd, hdk]
        simp
    · have hsnd : (updateLineStep settings path acc l).2.1 = acc.2.1 := by
        unfold updateLineStep
        dsimp only
        simp only [if_neg h]
      have hdk : definesKey k l = false := by
        unfold definesKey
        rw [Bool.not_eq_true] at h
        rw [h, Bool.false_and]
      rw [hsnd, hdk]
      simp

theorem addMissing_foldl (path : String) (found : List Chars)
    (settings2 : List (Chars × Chars)) :
    ∀ acc : List Chars × List String,
      (settings2.foldl
          (fun acc kv => if kv.1 ∈ found then acc else addMissingStep path acc kv) acc).1
        = acc.1 ++ (settings2.filter (fun kv => !decide (kv.1 ∈ found))).map
            (fun kv => kvLine kv.1 kv.2) := by
  induction settings2 with
  | nil => intro acc; simp
  | cons kv rest ih =>
    intro acc
    rw [List.foldl_cons, List.filter_cons]
    by_cases h : kv.1 ∈ found
    · rw [if_pos h, ih]
      simp [h]
    · rw [if_neg h, ih]
      simp [h, addMissingStep, List.append_assoc]

theorem settingsLookup_isSome_of_mem {settings : List (Chars × Chars)}
    {kv : Chars × Chars} (h : kv ∈ settings) :
    (settingsLookup settings kv.1).isSome = true := by
  induction settings with
  | nil => cases h
  | cons hd rest ih =>
    obtain ⟨k0, v0⟩ := hd
    by_cases hq : kv.1 = k0
    · simp [settingsLookup, hq]
    · rcases List.mem_cons.1 h with h1 | h1
      · rw [h1] at hq
        exact absurd rfl hq
      · simp only [settingsLookup, if_neg hq]
        exact ih h1

/-- C8 (amended): the upsert rewrites every line whose (stripped) key
occurs in the settings map to the canonical `key = value` form,
appends one `key = value` line for each settings key no input line
defines, and keeps every other line — but stripped of its leading and
trailing whitespace, not byte-for-byte unchanged. -/
theorem updateConfig_characterization (content : Chars) (settings : List (Chars × Chars))
    (path : String) :
    (updateConfigContent content settings path).1
      = joinNl ((pyReadlines content).map (transformLine settings)
          ++ missingKvLines settings (pyReadlines content)) := by
  unfold updateConfigContent
  dsimp only
  rw [addMissing_foldl path
      ((pyReadlines content).foldl (updateLineStep settings path) ([], [], [])).2.1 settings
      ([], [])]
  rw [updateLineStep_fst settings path (pyReadlines content) ([], [], [])]
  have hcong : settings.filter (fun kv =>
        !decide (kv.1 ∈ ((pyReadlines content).foldl (updateLineStep settings path)
          ([], [], [])).2.1))
      = settings.filter (fun kv => !(pyReadlines content).any (definesKey kv.1)) := by
    apply List.filter_congr
    intro kv hkv
    have hk := settingsLookup_isSome_of_mem hkv
    have hmem := updateLineStep_found settings path (pyReadlines content) kv.1 hk ([], [], [])
    simp only [List.not_mem_nil, false_or] at hmem
    by_cases hA : (pyReadlines content).any (definesKey kv.1) = true
    · simp [hmem, hA]
    · have hA2 : (pyReadlines content).any (definesKey kv.1) = false :=
        Bool.not_eq_true _ ▸ (by simpa using hA)
      simp [hmem, hA2]
  rw [hcong]
  simp [missingKvLines]
